import Mathlib

/-!
# Verification of the undgraph parsing-and-mesh-generation core

A shallow embedding of `src/undgraph.c` (the format parser `read_undgraph`
and the mesh builder in `main`).  Float arithmetic is modelled exactly over
`ℚ`; the C constants `FLT_MIN` and `FLT_MAX` become the corresponding exact
rationals.  A file is modelled as the sequence of chunks delivered by
`fgets`: a header chunk followed by the data chunks.  Both passes of the
two-pass read use the same buffer size in the C code, so they traverse the
same chunk sequence.  `strtof`/`sscanf("%f")` are modelled on decimal
literals (optional sign, digits, fraction, exponent); the non-finite forms
`inf`/`nan` have no rational counterpart and are outside the model.
-/

attribute [local semireducible] Rat.add Rat.mul Rat.sub Rat.inv Rat.ofScientific

set_option maxRecDepth 100000

namespace Undgraph

/-- C `isspace` in the default locale. -/
def isSpaceC (c : Char) : Bool :=
  c == ' ' || c == '\t' || c == '\n' || c == '\r' || c == '\x0b' || c == '\x0c'

/-- Numeric value of a decimal digit character. -/
def digitVal (c : Char) : Nat := c.toNat - 48

/-- Value of a digit run, most significant first. -/
def digitsToNat (ds : List Char) : Nat := ds.foldl (fun a c => 10 * a + digitVal c) 0

/-- Exponent part after `e`/`E`: optional sign then at least one digit.
`none` when the digits are missing (then `strtof` does not consume the
exponent marker at all). -/
def parseExpPart (s : List Char) : Option (Int × List Char) :=
  let p : Int × List Char :=
    match s with
    | '-' :: t => (-1, t)
    | '+' :: t => (1, t)
    | _ => (1, s)
  let ds := p.2.takeWhile Char.isDigit
  if ds.isEmpty then none
  else some (p.1 * (digitsToNat ds : Int), p.2.drop ds.length)

/-- Model of C `strtof` reading a decimal float from the start of `s`:
skip whitespace, optional sign, integer digits, optional `.` and fraction
digits (at least one digit overall), optional exponent.  Returns the exact
rational value and the unconsumed rest, or `none` when no conversion is
performed. -/
def parseFloatPrefix (s : List Char) : Option (ℚ × List Char) :=
  let s0 := s.dropWhile isSpaceC
  let sg : ℚ × List Char :=
    match s0 with
    | '-' :: t => (-1, t)
    | '+' :: t => (1, t)
    | _ => (1, s0)
  let ip := sg.2.takeWhile Char.isDigit
  let s2 := sg.2.drop ip.length
  let fr : List Char × List Char :=
    match s2 with
    | '.' :: t => (t.takeWhile Char.isDigit, t.drop (t.takeWhile Char.isDigit).length)
    | _ => ([], s2)
  if ip.isEmpty && fr.1.isEmpty then none
  else
    let mant : ℚ := sg.1 * ((digitsToNat ip : ℚ) + (digitsToNat fr.1 : ℚ) / (10 : ℚ) ^ fr.1.length)
    match fr.2 with
    | 'e' :: t =>
      match parseExpPart t with
      | some (e, r) => some (mant * (10 : ℚ) ^ e, r)
      | none => some (mant, fr.2)
    | 'E' :: t =>
      match parseExpPart t with
      | some (e, r) => some (mant * (10 : ℚ) ^ e, r)
      | none => some (mant, fr.2)
    | _ => some (mant, fr.2)

/-- `strtof(line, NULL)`: the converted value, or `0` when no conversion
can be performed. -/
def strtof (s : List Char) : ℚ :=
  match parseFloatPrefix s with
  | some (v, _) => v
  | none => 0

/-- `sscanf(line, "%f", &f) == 1`: the successfully scanned value, if any. -/
def scanFloat (s : List Char) : Option ℚ :=
  (parseFloatPrefix s).map Prod.fst

/-- First pass of `read_undgraph` (`/* line count */`): count lines until one
fails to scan as a float. -/
def countPass : List (List Char) → Nat
  | [] => 0
  | l :: ls =>
    match scanFloat l with
    | some _ => countPass ls + 1
    | none => 0

/-- Second pass of `read_undgraph` (`/* read the graph data */`): read lines
while lines remain and fewer than `n` samples are stored, converting each
with `strtof`. -/
def fillPass (ls : List (List Char)) (n : Nat) : List ℚ :=
  (ls.take n).map strtof

/-- The body of `if(f > data->max_value) data->max_value = f;`. -/
def stepMax (m f : ℚ) : ℚ := if f > m then f else m

/-- The body of `if(f < data->min_value) data->min_value = f;`. -/
def stepMin (m f : ℚ) : ℚ := if f < m then f else m

/-- `FLT_MIN`, the smallest positive normal `float`, `2^(-126)`. -/
def FLT_MIN : ℚ := 1 / 2 ^ 126

/-- `FLT_MAX`, the largest finite `float`, `(2^24 - 1) * 2^104`. -/
def FLT_MAX : ℚ := (2 ^ 24 - 1) * 2 ^ 104

/-- One step of the header walk `sscanf(lp += nc, " %31s %n", tag, &nc)`:
skip whitespace, take at most 31 non-whitespace characters.  `none` when
only whitespace remains. -/
def nextToken (s : List Char) : Option (List Char × List Char) :=
  let s1 := s.dropWhile isSpaceC
  if s1.isEmpty then none
  else
    let tok := (s1.takeWhile (fun c => !(isSpaceC c))).take 31
    some (tok, s1.drop tok.length)

/-- The first whitespace-delimited token of a line, untruncated (the wording
of the specification, to be compared with the `%31s`-truncated token the
code extracts). -/
def firstToken (s : List Char) : Option (List Char) :=
  let s1 := s.dropWhile isSpaceC
  if s1.isEmpty then none else some (s1.takeWhile (fun c => !(isSpaceC c)))

/-- `sscanf(s, "%d", ...)`: optional whitespace, optional sign, at least one
digit. -/
def scanInt (s : List Char) : Option Int :=
  let s0 := s.dropWhile isSpaceC
  let sg : Int × List Char :=
    match s0 with
    | '-' :: t => (-1, t)
    | '+' :: t => (1, t)
    | _ => (1, s0)
  let ds := sg.2.takeWhile Char.isDigit
  if ds.isEmpty then none else some (sg.1 * (digitsToNat ds : Int))

/-- `sscanf(tag, "key:%d", &v)`: the literal `key:` must match, then an
integer follows. -/
def scanTagInt (key : List Char) (t : List Char) : Option Int :=
  if (key ++ [':']).isPrefixOf t then scanInt (t.drop (key.length + 1)) else none

/-- `sscanf(tag, "key:%f", &v)`: the literal `key:` must match, then a float
follows. -/
def scanTagFloat (key : List Char) (t : List Char) : Option ℚ :=
  if (key ++ [':']).isPrefixOf t then scanFloat (t.drop (key.length + 1)) else none

/-- `struct graphdata_s`. -/
structure graphdata_s where
  msaa : Int
  save : Int
  line_width : ℚ
  frame_px : ℚ
  max_value : ℚ
  min_value : ℚ
  tick_size : ℚ
  size : Nat
  data : List ℚ
deriving Repr, DecidableEq

/-- Processing of one header token in the tag loop.  `strstr(tag, k) == tag`
is the prefix test; on a prefix match the corresponding `sscanf` either
updates the field or leaves it unchanged, and the loop `continue`s without a
warning.  The second component records whether the unknown-tag warning was
emitted. -/
def applyTag (d : graphdata_s) (t : List Char) : graphdata_s × Bool :=
  if ("msaa".data).isPrefixOf t then
    (match scanTagInt ("msaa".data) t with
     | some v => { d with msaa := v }
     | none => d, false)
  else if ("save".data).isPrefixOf t then
    (match scanTagInt ("save".data) t with
     | some v => { d with save := v }
     | none => d, false)
  else if ("lw".data).isPrefixOf t then
    (match scanTagFloat ("lw".data) t with
     | some v => { d with line_width := v }
     | none => d, false)
  else if ("frame_px".data).isPrefixOf t then
    (match scanTagFloat ("frame_px".data) t with
     | some v => { d with frame_px := v }
     | none => d, false)
  else (d, true)

/-- The header tag loop, fuelled by the length of the remaining header text
(each extracted token consumes at least one character, so the fuel never
runs out before the tokens do). -/
def tagLoopF : Nat → graphdata_s → List Char → graphdata_s
  | 0, d, _ => d
  | fuel + 1, d, s =>
    match nextToken s with
    | none => d
    | some (tok, r) => tagLoopF fuel (applyTag d tok).1 r

/-- `/* header: tags */` loop of `read_undgraph`. -/
def tagLoop (d : graphdata_s) (s : List Char) : graphdata_s :=
  tagLoopF s.length d s

/-- `read_undgraph` on an already-opened file, given as the header chunk and
the remaining chunks.  `none` is the `invalid header format` failure
(`FormatError`); the `IoError` of a failed `fopen` happens before any input
exists and is outside this model. -/
def read_undgraph (header : List Char) (rest : List (List Char)) : Option graphdata_s :=
  match nextToken header with
  | none => none
  | some (tok, hrest) =>
    if tok = ("undgraph".data) then
      let d0 : graphdata_s :=
        { msaa := 0, save := 0, line_width := 1, frame_px := 0,
          max_value := 0, min_value := 0, tick_size := 0, size := 0, data := [] }
      let d1 := tagLoop d0 hrest
      let size := countPass rest
      let values := fillPass rest size
      let maxv := values.foldl stepMax FLT_MIN
      let minv := values.foldl stepMin FLT_MAX
      some { d1 with
             max_value := maxv
             min_value := minv
             tick_size := |maxv - minv| / (size : ℚ)
             size := size
             data := values }
    else none

/-- `#define WIDTH (1152)`. -/
def WIDTH : Nat := 1152

/-- `#define HEIGHT (648)`. -/
def HEIGHT : Nat := 648

/-- The mesh-construction loop of `main` (lines 361-363). -/
def buildMesh (d : graphdata_s) : List (ℚ × ℚ) :=
  (List.range d.size).map fun (i : Nat) =>
    (d.frame_px + (i : ℚ) * ((WIDTH : ℚ) - d.frame_px * 2) / (d.size : ℚ),
     d.frame_px + d.data.getD i 0 / d.max_value * ((HEIGHT : ℚ) - d.frame_px * 2))

/-! ## Concrete inputs and parse results used to instantiate the theorems -/

/-- The default-initialized tag state (`/* default tag values */`). -/
def defaultTags : graphdata_s :=
  { msaa := 0, save := 0, line_width := 1, frame_px := 0,
    max_value := 0, min_value := 0, tick_size := 0, size := 0, data := [] }

/-- Parse result of `"undgraph\n1\n2\n"`. -/
def w1gd : graphdata_s :=
  { msaa := 0, save := 0, line_width := 1, frame_px := 0,
    max_value := 2, min_value := 1, tick_size := 1 / 2, size := 2, data := [1, 2] }

/-- Parse result of `"undgraph frame_px:10\n4\n2\n"`. -/
def w2gd : graphdata_s :=
  { msaa := 0, save := 0, line_width := 1, frame_px := 10,
    max_value := 4, min_value := 2, tick_size := 1, size := 2, data := [4, 2] }

/-- Parse result of `"undgraph\n-5\n-3\n"`: all samples are negative, so no
comparison ever replaces the `FLT_MIN` that `max_value` is initialized to. -/
def c3gd : graphdata_s :=
  { msaa := 0, save := 0, line_width := 1, frame_px := 0,
    max_value := FLT_MIN, min_value := -5,
    tick_size := (5 + FLT_MIN) / 2, size := 2, data := [-5, -3] }

/-- Parse result of `"undgraph\n5\n7\n"`. -/
def w5gd : graphdata_s :=
  { msaa := 0, save := 0, line_width := 1, frame_px := 0,
    max_value := 7, min_value := 5, tick_size := 1, size := 2, data := [5, 7] }

/-- Parse result of `"undgraph\n1\n3\n"`. -/
def w7gd : graphdata_s :=
  { msaa := 0, save := 0, line_width := 1, frame_px := 0,
    max_value := 3, min_value := 1, tick_size := 1, size := 2, data := [1, 3] }

/-- Parse result of `"undgraph\n-1\n"`. -/
def w9gd : graphdata_s :=
  { msaa := 0, save := 0, line_width := 1, frame_px := 0,
    max_value := FLT_MIN, min_value := -1,
    tick_size := FLT_MIN + 1, size := 1, data := [-1] }

/-! ## Basic lemmas -/

theorem countPass_le_length (ls : List (List Char)) : countPass ls ≤ ls.length := by
  induction ls with
  | nil => simp [countPass]
  | cons l ls ih =>
    simp only [countPass, List.length_cons]
    cases h : scanFloat l with
    | none => simp
    | some v => simpa using ih

theorem fillPass_length (ls : List (List Char)) (n : Nat) :
    (fillPass ls n).length = min n ls.length := by
  simp [fillPass]

theorem stepMax_eq_max (m f : ℚ) : stepMax m f = max m f := by
  unfold stepMax
  rcases le_or_lt f m with h | h
  · rw [if_neg (not_lt.mpr h), max_eq_left h]
  · rw [if_pos h, max_eq_right h.le]

theorem stepMin_eq_min (m f : ℚ) : stepMin m f = min m f := by
  unfold stepMin
  rcases le_or_lt m f with h | h
  · rw [if_neg (not_lt.mpr h), min_eq_left h]
  · rw [if_pos h, min_eq_right h.le]

theorem le_foldl_stepMax (l : List ℚ) : ∀ a : ℚ, a ≤ l.foldl stepMax a := by
  induction l with
  | nil => intro a; simp
  | cons x xs ih =>
    intro a
    have h1 : a ≤ stepMax a x := by rw [stepMax_eq_max]; exact le_max_left a x
    simpa [List.foldl_cons] using le_trans h1 (ih (stepMax a x))

theorem foldl_stepMin_le (l : List ℚ) : ∀ a : ℚ, l.foldl stepMin a ≤ a := by
  induction l with
  | nil => intro a; simp
  | cons x xs ih =>
    intro a
    have h1 : stepMin a x ≤ a := by rw [stepMin_eq_min]; exact min_le_left a x
    simpa [List.foldl_cons] using le_trans (ih (stepMin a x)) h1

theorem mem_le_foldl_stepMax {x : ℚ} {l : List ℚ} (hx : x ∈ l) :
    ∀ a : ℚ, x ≤ l.foldl stepMax a := by
  induction l with
  | nil => cases hx
  | cons y ys ih =>
    intro a
    rcases List.mem_cons.mp hx with h | h
    · subst h
      have h1 : x ≤ stepMax a x := by rw [stepMax_eq_max]; exact le_max_right a x
      simpa [List.foldl_cons] using le_trans h1 (le_foldl_stepMax ys (stepMax a x))
    · simpa [List.foldl_cons] using ih h (stepMax a y)

theorem foldl_stepMin_le_mem {x : ℚ} {l : List ℚ} (hx : x ∈ l) :
    ∀ a : ℚ, l.foldl stepMin a ≤ x := by
  induction l with
  | nil => cases hx
  | cons y ys ih =>
    intro a
    rcases List.mem_cons.mp hx with h | h
    · subst h
      have h1 : stepMin a x ≤ x := by rw [stepMin_eq_min]; exact min_le_right a x
      simpa [List.foldl_cons] using le_trans (foldl_stepMin_le ys (stepMin a x)) h1
    · simpa [List.foldl_cons] using ih h (stepMin a y)

/-- Destructor for a successful parse: the calculated fields of the result in
terms of the two passes. -/
theorem read_undgraph_some (header : List Char) (rest : List (List Char)) (gd : graphdata_s)
    (h : read_undgraph header rest = some gd) :
    gd.size = countPass rest ∧
    gd.data = fillPass rest (countPass rest) ∧
    gd.max_value = (fillPass rest (countPass rest)).foldl stepMax FLT_MIN ∧
    gd.min_value = (fillPass rest (countPass rest)).foldl stepMin FLT_MAX ∧
    gd.tick_size = |gd.max_value - gd.min_value| / ((countPass rest : ℚ)) := by
  unfold read_undgraph at h
  split at h
  · cases h
  · split at h
    · injection h with h
      subst h
      exact ⟨rfl, rfl, rfl, rfl, rfl⟩
    · cases h

theorem magic_take31 : ("undgraph".data).take 31 = "undgraph".data := by decide

theorem take31_eq_magic_iff (tk : List Char) :
    tk.take 31 = "undgraph".data ↔ tk = "undgraph".data := by
  constructor
  · intro h
    have hlen : (tk.take 31).length = 8 := by rw [h]; decide
    rw [List.length_take] at hlen
    have h8 : tk.length = 8 := by omega
    rwa [List.take_of_length_le (by omega)] at h
  · intro h
    rw [h]
    exact magic_take31

theorem nextToken_eq_none_iff (s : List Char) : nextToken s = none ↔ firstToken s = none := by
  unfold nextToken firstToken
  cases h : (s.dropWhile isSpaceC).isEmpty <;> simp [h]

theorem nextToken_fst_magic {s tok r : List Char} (h : nextToken s = some (tok, r)) :
    (tok = "undgraph".data ↔ firstToken s = some ("undgraph".data)) := by
  simp only [nextToken] at h
  split at h
  · cases h
  · rename_i he
    injection h with h
    obtain ⟨h1, -⟩ := Prod.mk.injEq .. ▸ h
    rw [← h1, take31_eq_magic_iff]
    simp [firstToken, he]

theorem read_undgraph_eq_none_iff (header : List Char) (rest : List (List Char)) :
    read_undgraph header rest = none ↔ firstToken header ≠ some ("undgraph".data) := by
  unfold read_undgraph
  cases hnt : nextToken header with
  | none =>
    have h0 : firstToken header = none := (nextToken_eq_none_iff header).mp hnt
    simp [h0]
  | some p =>
    obtain ⟨tok, hrest⟩ := p
    have hiff := nextToken_fst_magic hnt
    by_cases htok : tok = "undgraph".data
    · simp [htok, hiff.mp htok]
    · have hne : firstToken header ≠ some ("undgraph".data) := fun hc => htok (hiff.mpr hc)
      simp [htok, hne]

theorem fillPass_getD (ls : List (List Char)) (n i : Nat) (h1 : i < n) (h2 : i < ls.length) :
    (fillPass ls n).getD i 1 = strtof (ls.getD i []) := by
  rw [List.getD_eq_getElem?_getD, List.getD_eq_getElem?_getD]
  simp [fillPass, List.getElem?_take, h1, List.getElem?_eq_getElem h2]

theorem not_isPrefixOf_of_head_ne {a b : Char} {as bs t : List Char} (hab : b ≠ a)
    (h : (a :: as).isPrefixOf t = true) : (b :: bs).isPrefixOf t = false := by
  rw [List.isPrefixOf_iff_prefix] at h
  obtain ⟨u, hu⟩ := h
  cases hpb : (b :: bs).isPrefixOf t with
  | false => rfl
  | true =>
    rw [List.isPrefixOf_iff_prefix] at hpb
    obtain ⟨v, hv⟩ := hpb
    rw [← hu] at hv
    simp only [List.cons_append, List.cons.injEq] at hv
    exact absurd hv.1 hab

theorem buildMesh_getD (d : graphdata_s) (i : Nat) (hi : i < d.size) :
    (buildMesh d).getD i (0, 0) =
      (d.frame_px + (i : ℚ) * ((WIDTH : ℚ) - d.frame_px * 2) / (d.size : ℚ),
       d.frame_px + d.data.getD i 0 / d.max_value * ((HEIGHT : ℚ) - d.frame_px * 2)) := by
  simp [buildMesh, List.getD_eq_getElem?_getD, List.getElem?_range, hi]

/-! ## The claims -/

/-- C1: for every well-formed input (magic token present, so the parse
succeeds) whose data section counts to `count` sample lines in the first
pass, the resulting series has `size = count`, a values sequence of length
exactly `count`, and `min_value ≤ s ≤ max_value` for every sample `s`. -/
theorem C1_parse_count_and_bounds (header : List Char) (rest : List (List Char))
    (gd : graphdata_s) (h : read_undgraph header rest = some gd) :
    gd.size = countPass rest ∧ gd.data.length = countPass rest ∧
    ∀ s ∈ gd.data, gd.min_value ≤ s ∧ s ≤ gd.max_value := by
  obtain ⟨hs, hd, hmax, hmin, -⟩ := read_undgraph_some header rest gd h
  refine ⟨hs, ?_, ?_⟩
  · rw [hd, fillPass_length]
    exact min_eq_left (countPass_le_length rest)
  · intro s hsmem
    rw [hd] at hsmem
    constructor
    · rw [hmin]
      exact foldl_stepMin_le_mem hsmem FLT_MAX
    · rw [hmax]
      exact mem_le_foldl_stepMax hsmem FLT_MIN

theorem C1_witness :
    w1gd.size = countPass ["1".data, "2".data] ∧
    w1gd.data.length = countPass ["1".data, "2".data] ∧
    ∀ s ∈ w1gd.data, w1gd.min_value ≤ s ∧ s ≤ w1gd.max_value :=
  C1_parse_count_and_bounds ("undgraph\n".data) ["1".data, "2".data] w1gd (by decide)

/-- C2: for every parsed series with `count > 0` and sample index
`i < count`, the mesh vertex is
`x[i] = framePadding + i * (canvasWidth - 2*framePadding) / count` and
`y[i] = framePadding + (value[i] / maxValue) * (canvasHeight - 2*framePadding)`
with `canvasWidth = 1152` and `canvasHeight = 648`. -/
theorem C2_mesh_vertex_formula (header : List Char) (rest : List (List Char))
    (gd : graphdata_s) (h : read_undgraph header rest = some gd)
    (i : Nat) (hc : 0 < gd.size) (hi : i < gd.size) :
    (buildMesh gd).getD i (0, 0) =
      (gd.frame_px + (i : ℚ) * ((1152 : ℚ) - 2 * gd.frame_px) / (gd.size : ℚ),
       gd.frame_px + gd.data.getD i 0 / gd.max_value * ((648 : ℚ) - 2 * gd.frame_px)) := by
  rw [buildMesh_getD gd i hi]
  have hW : ((WIDTH : ℕ) : ℚ) = 1152 := by norm_num [WIDTH]
  have hH : ((HEIGHT : ℕ) : ℚ) = 648 := by norm_num [HEIGHT]
  rw [hW, hH]
  refine Prod.ext ?_ ?_ <;> ring

theorem C2_witness :
    (buildMesh w2gd).getD 0 (0, 0) =
      (w2gd.frame_px + ((0 : Nat) : ℚ) * ((1152 : ℚ) - 2 * w2gd.frame_px) / (w2gd.size : ℚ),
       w2gd.frame_px + w2gd.data.getD 0 0 / w2gd.max_value * ((648 : ℚ) - 2 * w2gd.frame_px)) :=
  C2_mesh_vertex_formula ("undgraph frame_px:10\n".data) ["4".data, "2".data] w2gd
    (by decide) 0 (by decide) (by decide)

/-- C3: the claim that `min_value`/`max_value` are the (attained) true
minimum/maximum over the values fails on the code: `max_value` is
initialized to `FLT_MIN`, a small positive number, and no comparison can
lower it, so for the all-negative input `"undgraph\n-5\n-3\n"` the parse
yields `max_value = FLT_MIN`, which is not attained by any sample and
differs from the true maximum `-3`. -/
theorem C3_max_value_not_true_max :
    read_undgraph ("undgraph\n".data) ["-5".data, "-3".data] = some c3gd ∧
    c3gd.data ≠ [] ∧
    (-3 : ℚ) ∈ c3gd.data ∧ (∀ s ∈ c3gd.data, s ≤ -3) ∧
    c3gd.max_value = FLT_MIN ∧
    c3gd.max_value ∉ c3gd.data ∧ c3gd.max_value ≠ -3 := by decide

/-- C4: the parse fails (with `FormatError`, the only in-model failure) if
and only if the first whitespace-delimited token of the header line is not
the literal `undgraph`; in particular an input beginning `notundgraph`
fails. -/
theorem C4_format_error_iff_bad_magic :
    (∀ (header : List Char) (rest : List (List Char)),
        read_undgraph header rest = none ↔ firstToken header ≠ some ("undgraph".data)) ∧
    read_undgraph ("notundgraph\n".data) ["1.0".data, "2.0".data] = none :=
  ⟨fun header rest => read_undgraph_eq_none_iff header rest, by decide⟩

theorem C4_witness :
    read_undgraph ("xyz\n".data) ["1".data] = none :=
  (C4_format_error_iff_bad_magic.1 ("xyz\n".data) ["1".data]).mpr (by decide)

/-- C5: for every parsed series with `count > 0` and
`canvasWidth = 1152 > 2 * framePadding`, the mesh x-coordinates are
monotonically non-decreasing in the sample index. -/
theorem C5_mesh_x_monotone (header : List Char) (rest : List (List Char))
    (gd : graphdata_s) (h : read_undgraph header rest = some gd)
    (hc : 0 < gd.size) (hw : 2 * gd.frame_px < 1152) (i : Nat) (hi : i + 1 < gd.size) :
    ((buildMesh gd).getD i (0, 0)).1 ≤ ((buildMesh gd).getD (i + 1) (0, 0)).1 := by
  rw [buildMesh_getD gd i (by omega), buildMesh_getD gd (i + 1) hi]
  have hW : ((WIDTH : ℕ) : ℚ) = 1152 := by norm_num [WIDTH]
  rw [hW]
  have hn : (0 : ℚ) < (gd.size : ℚ) := by exact_mod_cast hc
  have hd : (0 : ℚ) ≤ (1152 : ℚ) - gd.frame_px * 2 := by linarith
  have hcast : ((i + 1 : Nat) : ℚ) = (i : ℚ) + 1 := by push_cast; ring
  rw [hcast]
  have hle : (i : ℚ) * ((1152 : ℚ) - gd.frame_px * 2) ≤ ((i : ℚ) + 1) * ((1152 : ℚ) - gd.frame_px * 2) := by
    have : (i : ℚ) ≤ (i : ℚ) + 1 := by linarith
    exact mul_le_mul_of_nonneg_right this hd
  exact add_le_add_left ((div_le_div_iff_of_pos_right hn).mpr hle) gd.frame_px

theorem C5_witness :
    ((buildMesh w5gd).getD 0 (0, 0)).1 ≤ ((buildMesh w5gd).getD 1 (0, 0)).1 :=
  C5_mesh_x_monotone ("undgraph\n".data) ["5".data, "7".data] w5gd
    (by decide) (by decide) (by decide) 0 (by decide)

/-- C6: in the fill pass, a line with no parsable leading float contributes
the sample value `0` at its position and processing continues (the output
covers every position up to `count` or end of input), while a line with a
parsable leading float contributes exactly the value of that prefix, the
trailing rest of the line being ignored. -/
theorem C6_fill_pass_lenient (lines : List (List Char)) (n : Nat) :
    (fillPass lines n).length = min n lines.length ∧
    ∀ i : Nat, i < n → i < lines.length →
      (parseFloatPrefix (lines.getD i []) = none → (fillPass lines n).getD i 1 = 0) ∧
      (∀ (v : ℚ) (r : List Char), parseFloatPrefix (lines.getD i []) = some (v, r) →
        (fillPass lines n).getD i 1 = v) := by
  refine ⟨fillPass_length lines n, fun i h1 h2 => ⟨?_, ?_⟩⟩
  · intro hp
    rw [fillPass_getD lines n i h1 h2]
    unfold strtof
    rw [hp]
  · intro v r hp
    rw [fillPass_getD lines n i h1 h2]
    unfold strtof
    rw [hp]

theorem C6_witness :
    (fillPass ["abc".data, "3.5xyz".data] 5).length = min 5 (["abc".data, "3.5xyz".data]).length ∧
    (fillPass ["abc".data, "3.5xyz".data] 5).getD 0 1 = 0 ∧
    (fillPass ["abc".data, "3.5xyz".data] 5).getD 1 1 = 7 / 2 :=
  ⟨(C6_fill_pass_lenient ["abc".data, "3.5xyz".data] 5).1,
   ((C6_fill_pass_lenient ["abc".data, "3.5xyz".data] 5).2 0 (by decide) (by decide)).1 (by decide),
   ((C6_fill_pass_lenient ["abc".data, "3.5xyz".data] 5).2 1 (by decide) (by decide)).2
     (7 / 2) ("xyz".data) (by decide)⟩

/-- C7: after a successful parse with `count > 0`, the tick size equals
`|max_value - min_value| / count` in exact arithmetic. -/
theorem C7_tick_size (header : List Char) (rest : List (List Char))
    (gd : graphdata_s) (h : read_undgraph header rest = some gd) (hc : 0 < gd.size) :
    gd.tick_size = |gd.max_value - gd.min_value| / (gd.size : ℚ) := by
  obtain ⟨hs, -, -, -, ht⟩ := read_undgraph_some header rest gd h
  rw [ht, hs]

theorem C7_witness :
    w7gd.tick_size = |w7gd.max_value - w7gd.min_value| / (w7gd.size : ℚ) :=
  C7_tick_size ("undgraph\n".data) ["1".data, "3".data] w7gd (by decide) (by decide)

/-- C8: an input consisting of a valid header line and no data lines parses
successfully with `count = 0`, every later stage is total on that result,
and the mesh built from it is empty. -/
theorem C8_header_only_empty_mesh (header : List Char)
    (h : firstToken header = some ("undgraph".data)) :
    ∃ gd, read_undgraph header [] = some gd ∧ gd.size = 0 ∧ gd.data = [] ∧
      buildMesh gd = [] := by
  have hne : read_undgraph header [] ≠ none := fun hn =>
    ((read_undgraph_eq_none_iff header []).mp hn) h
  obtain ⟨gd, hgd⟩ : ∃ gd, read_undgraph header [] = some gd := by
    cases hr : read_undgraph header [] with
    | none => exact absurd hr hne
    | some gd => exact ⟨gd, rfl⟩
  obtain ⟨hs, hd, -, -, -⟩ := read_undgraph_some header [] gd hgd
  have hs0 : gd.size = 0 := by simpa [countPass] using hs
  refine ⟨gd, hgd, hs0, ?_, ?_⟩
  · simpa [countPass, fillPass] using hd
  · simp [buildMesh, hs0]

theorem C8_witness :
    ∃ gd, read_undgraph ("undgraph\n".data) [] = some gd ∧ gd.size = 0 ∧ gd.data = [] ∧
      buildMesh gd = [] :=
  C8_header_only_empty_mesh ("undgraph\n".data) (by decide)

/-- C9: every successful parse yields `max_value ≥ FLT_MIN > 0` — the value
it is initialized to and which no comparison can lower — so the mesh
builder's division by `max_value` is never a division by zero. -/
theorem C9_max_value_positive (header : List Char) (rest : List (List Char))
    (gd : graphdata_s) (h : read_undgraph header rest = some gd) :
    FLT_MIN ≤ gd.max_value ∧ 0 < gd.max_value ∧ gd.max_value ≠ 0 := by
  obtain ⟨-, -, hmax, -, -⟩ := read_undgraph_some header rest gd h
  have h1 : FLT_MIN ≤ gd.max_value := by
    rw [hmax]
    exact le_foldl_stepMax _ FLT_MIN
  have h2 : (0 : ℚ) < FLT_MIN := by rw [FLT_MIN]; positivity
  exact ⟨h1, lt_of_lt_of_le h2 h1, (lt_of_lt_of_le h2 h1).ne'⟩

theorem C9_witness :
    FLT_MIN ≤ w9gd.max_value ∧ 0 < w9gd.max_value ∧ w9gd.max_value ≠ 0 :=
  C9_max_value_positive ("undgraph\n".data) ["-1".data] w9gd (by decide)

/-- C10: a header token that starts with one of the recognized key prefixes
(`msaa`, `save`, `lw`, `frame_px`) but whose `key:value` scan fails is
consumed silently — no warning, and the configuration is unchanged — while
the unknown-tag warning fires exactly for tokens matching none of the four
prefixes. -/
theorem C10_prefix_tags_consumed_silently (d : graphdata_s) (t : List Char) :
    (("msaa".data).isPrefixOf t = true → scanTagInt ("msaa".data) t = none →
      applyTag d t = (d, false)) ∧
    (("save".data).isPrefixOf t = true → scanTagInt ("save".data) t = none →
      applyTag d t = (d, false)) ∧
    (("lw".data).isPrefixOf t = true → scanTagFloat ("lw".data) t = none →
      applyTag d t = (d, false)) ∧
    (("frame_px".data).isPrefixOf t = true → scanTagFloat ("frame_px".data) t = none →
      applyTag d t = (d, false)) ∧
    ((applyTag d t).2 = true ↔
      ("msaa".data).isPrefixOf t = false ∧ ("save".data).isPrefixOf t = false ∧
      ("lw".data).isPrefixOf t = false ∧ ("frame_px".data).isPrefixOf t = false) := by
  refine ⟨?_, ?_, ?_, ?_, ?_⟩
  · intro hp hscan
    simp [applyTag, hp, hscan]
  · intro hp hscan
    have hm : ("msaa".data).isPrefixOf t = false :=
      not_isPrefixOf_of_head_ne (by decide) hp
    simp [applyTag, hp, hm, hscan]
  · intro hp hscan
    have hm : ("msaa".data).isPrefixOf t = false :=
      not_isPrefixOf_of_head_ne (by decide) hp
    have hs : ("save".data).isPrefixOf t = false :=
      not_isPrefixOf_of_head_ne (by decide) hp
    simp [applyTag, hp, hm, hs, hscan]
  · intro hp hscan
    have hm : ("msaa".data).isPrefixOf t = false :=
      not_isPrefixOf_of_head_ne (by decide) hp
    have hs : ("save".data).isPrefixOf t = false :=
      not_isPrefixOf_of_head_ne (by decide) hp
    have hl : ("lw".data).isPrefixOf t = false :=
      not_isPrefixOf_of_head_ne (by decide) hp
    simp [applyTag, hp, hm, hs, hl, hscan]
  · constructor
    · intro hw
      by_contra hc
      rcases hm : ("msaa".data).isPrefixOf t with _ | _
      · rcases hs : ("save".data).isPrefixOf t with _ | _
        · rcases hl : ("lw".data).isPrefixOf t with _ | _
          · rcases hf : ("frame_px".data).isPrefixOf t with _ | _
            · exact hc ⟨hm, hs, hl, hf⟩
            · rw [applyTag, hm, hs, hl, hf] at hw
              simp at hw
          · rw [applyTag, hm, hs, hl] at hw
            simp at hw
        · rw [applyTag, hm, hs] at hw
          simp at hw
      · rw [applyTag, hm] at hw
        simp at hw
    · rintro ⟨hm, hs, hl, hf⟩
      simp [applyTag, hm, hs, hl, hf]

theorem C10_witness :
    applyTag defaultTags ("msaax".data) = (defaultTags, false) ∧
    applyTag defaultTags ("lw:abc".data) = (defaultTags, false) ∧
    applyTag defaultTags ("save".data) = (defaultTags, false) ∧
    (applyTag defaultTags ("zzz".data)).2 = true :=
  ⟨(C10_prefix_tags_consumed_silently defaultTags ("msaax".data)).1 (by decide) (by decide),
   (C10_prefix_tags_consumed_silently defaultTags ("lw:abc".data)).2.2.1 (by decide) (by decide),
   (C10_prefix_tags_consumed_silently defaultTags ("save".data)).2.1 (by decide) (by decide),
   ((C10_prefix_tags_consumed_silently defaultTags ("zzz".data)).2.2.2.2).mpr (by decide)⟩

end Undgraph
